import Mathlib

/-!
Verification of the question-tagging tool (app.py) against its
natural-language specification.

The embedding models the Python source shallowly:
  * Python dicts (insertion-ordered, unique keys) become association
    lists with in-place update / append-at-end semantics;
  * the tagging state is the `question_mappings` dict: question index
    to list of mappings;
  * the taxonomy hierarchy is the nested dict built by
    `get_hierarchy_data`;
  * the snapshot store is a map from file path to file content, where a
    file may be missing, corrupt (unpicklable), or hold a session
    record — pickle serialization is abstracted as the identity on the
    stored record;
  * one Streamlit interaction cycle on a mapping row is modelled as a
    pure function from the prior mapping and the user's dropdown choice
    to the mapping written back at app.py lines 374-378; a selectbox
    with options and a default index yields the option at that index
    (Streamlit retains a widget's prior value exactly when it is still
    among the options, which coincides with the code's index
    computation).
-/

set_option autoImplicit false

namespace QTag

/-- Ordered association-list lookup, mirroring Python dict indexing. -/
def lookupA {α β : Type} [DecidableEq α] (k : α) : List (α × β) → Option β
  | [] => none
  | p :: rest => if p.1 = k then some p.2 else lookupA k rest

/-- Ordered association-list update, mirroring Python
`d[k] = f(d.get(k, dflt))`: an existing key is updated in place, a new
key is appended at the end (Python dicts preserve insertion order). -/
def updAssoc {α β : Type} [DecidableEq α] (k : α) (d : β) (f : β → β) :
    List (α × β) → List (α × β)
  | [] => [(k, f d)]
  | p :: rest => if p.1 = k then (p.1, f p.2) :: rest else p :: updAssoc k d f rest

/-- Python `d[k] = v`. -/
def setAssoc {α β : Type} [DecidableEq α] (l : List (α × β)) (k : α) (v : β) :
    List (α × β) :=
  updAssoc k v (fun _ => v) l

/-- One Subject/Topic/Subtopic tag record, the dict
`{'Subject': ..., 'Topic': ..., 'Subtopic': ...}` of app.py; the empty
string is the "unset" sentinel, as in the source. -/
structure Mapping where
  Subject : String
  Topic : String
  Subtopic : String
  deriving DecidableEq, Repr

/-- The empty mapping `{'Subject': '', 'Topic': '', 'Subtopic': ''}`. -/
def emptyMapping : Mapping := ⟨"", "", ""⟩

/-- One row of the Subjects taxonomy table (columns Subject, Topic,
Subtopic). -/
structure TaxRow where
  Subject : String
  Topic : String
  Subtopic : String
  deriving DecidableEq, Repr

/-- The nested hierarchy dict built by `get_hierarchy_data`:
subject to (topic to subtopic list). -/
abbrev Hierarchy : Type := List (String × List (String × List String))

/-- Python `if x not in l: l.append(x)` — the idempotent set-like insert
of `get_hierarchy_data` (app.py lines 200-201). -/
def insertIfAbsent {α : Type} [DecidableEq α] (l : List α) (x : α) : List α :=
  if x ∈ l then l else l ++ [x]

/-- One iteration of the row loop of `get_hierarchy_data`
(app.py lines 189-201): ensure the subject and topic chain exists and
append the subtopic if absent. -/
def addRow (h : Hierarchy) (r : TaxRow) : Hierarchy :=
  updAssoc r.Subject []
    (fun topics => updAssoc r.Topic [] (fun subs => insertIfAbsent subs r.Subtopic) topics) h

/-- `get_hierarchy_data` (app.py lines 185-203): fold the taxonomy rows
into the nested hierarchy dict, starting from an empty dict. -/
def get_hierarchy_data (rows : List TaxRow) : Hierarchy :=
  rows.foldl addRow []

/-- `list(hierarchy[subject].keys())` with a missing subject giving the
empty list. -/
def topicsOf (h : Hierarchy) (s : String) : List String :=
  ((lookupA s h).getD []).map Prod.fst

/-- `hierarchy[subject][topic]` with missing keys giving the empty
list. -/
def subtopicsOf (h : Hierarchy) (s t : String) : List String :=
  (lookupA t ((lookupA s h).getD [])).getD []

/-- A `st.selectbox` with the given options whose default index is the
position of `current` when present and `0` otherwise (app.py lines
314-316 and 337-339); the selectbox yields the option at that index. -/
def dropdownSelect (options : List String) (current : String) : String :=
  options.getD (if current ∈ options then options.indexOf current else 0) ""

/-- One interaction cycle on a mapping row after the user sets the
subject dropdown to `selSubject` (app.py lines 290-351 and 374-378):
the topic options are `[""] +` the new subject's topics, the topic keeps
its old value exactly when that value is among the options; likewise for
the subtopic; the resulting dict is written back to the mapping. -/
def interactSubject (h : Hierarchy) (m : Mapping) (selSubject : String) : Mapping :=
  let topicOptions := if selSubject ≠ "" then "" :: topicsOf h selSubject else [""]
  let selTopic := dropdownSelect topicOptions m.Topic
  let subOptions :=
    if selSubject ≠ "" ∧ selTopic ≠ "" then "" :: subtopicsOf h selSubject selTopic
    else [""]
  let selSubtopic := dropdownSelect subOptions m.Subtopic
  { Subject := selSubject, Topic := selTopic, Subtopic := selSubtopic }

/-! ## Tagging state -/

/-- The `question_mappings` dict of app.py: question index to ordered
list of mappings. -/
abbrev TaggingState : Type := List (Nat × List Mapping)

/-- Apply `f` to question `idx`'s mapping list, in place (Python
mutation of `question_mappings[idx]`); other questions untouched. -/
def modifyAt (s : TaggingState) (idx : Nat) (f : List Mapping → List Mapping) :
    TaggingState :=
  s.map (fun p => if p.1 = idx then (p.1, f p.2) else p)

/-- app.py lines 261-262: `if idx not in st.session_state.question_mappings:
question_mappings[idx] = [{'Subject': '', 'Topic': '', 'Subtopic': ''}]`. -/
def ensure_question (s : TaggingState) (idx : Nat) : TaggingState :=
  if (lookupA idx s).isSome then s else s ++ [(idx, [emptyMapping])]

/-- app.py line 361: append one empty mapping to question `idx`'s
list. -/
def add_mapping (s : TaggingState) (idx : Nat) : TaggingState :=
  modifyAt s idx (fun l => l ++ [emptyMapping])

/-- The invariant violated by removing a question's only mapping. -/
inductive InvariantError where
  | removeLastMapping
  deriving DecidableEq, Repr

/-- Removal of the mapping at position `pos` (app.py lines 366-371):
the delete button exists only when the question has more than one
mapping, so a removal request on a list of length at most one is
rejected — the spec names that rejection `InvariantError` — and
otherwise `pop(pos)` removes the element at `pos`. -/
def remove_mapping (l : List Mapping) (pos : Nat) :
    Except InvariantError (List Mapping) :=
  if 1 < l.length then Except.ok (l.eraseIdx pos) else Except.error InvariantError.removeLastMapping

/-- The mapping list left behind by a removal request: the new list on
success, the old list untouched on rejection. -/
def remove_mapping_run (l : List Mapping) (pos : Nat) : List Mapping :=
  match remove_mapping l pos with
  | Except.ok l' => l'
  | Except.error _ => l

/-- State-level removal: on rejection the state is unchanged. -/
def remove_mapping_state (s : TaggingState) (idx pos : Nat) : TaggingState :=
  modifyAt s idx (fun l => remove_mapping_run l pos)

/-- app.py lines 374-378: write the mapping assembled from the current
dropdown selections back at position `pos` of question `idx`'s list. -/
def set_field (s : TaggingState) (idx pos : Nat) (m : Mapping) : TaggingState :=
  modifyAt s idx (fun l => l.set pos m)

/-- Every question present in the state owns at least one mapping. -/
def mappingListsNonempty (s : TaggingState) : Prop :=
  ∀ p ∈ s, p.2 ≠ ([] : List Mapping)

/-! ## Export flattener -/

/-- One entry of the `question_tags` dict (app.py lines 381-385). -/
structure QuestionTag where
  Question : String
  Answer : String
  Mappings : List Mapping
  deriving DecidableEq, Repr

/-- One export row (app.py lines 605-611). -/
structure ExportRow where
  Question : String
  Answer : String
  Subject : String
  Topic : String
  Subtopic : String
  deriving DecidableEq, Repr

/-- Python truthiness test of app.py line 601:
`m['Subject'] or m['Topic'] or m['Subtopic']` — at least one field is a
non-empty string. -/
def mappingNonEmpty (m : Mapping) : Bool :=
  m.Subject ≠ "" || m.Topic ≠ "" || m.Subtopic ≠ ""

/-- Rows produced for one question (app.py lines 598-620): one row per
mapping with at least one non-empty field; if there is none, a single
row with empty Subject/Topic/Subtopic. -/
def rowsForQuestion (t : QuestionTag) : List ExportRow :=
  let valid := t.Mappings.filter mappingNonEmpty
  if valid ≠ [] then
    valid.map (fun m => ⟨t.Question, t.Answer, m.Subject, m.Topic, m.Subtopic⟩)
  else
    [⟨t.Question, t.Answer, "", "", ""⟩]

/-- The export loop of app.py lines 596-620: iterate `question_tags` in
insertion order (ascending question index) and concatenate each
question's rows. -/
def exportFlatten (tags : List (Nat × QuestionTag)) : List ExportRow :=
  tags.flatMap (fun p => rowsForQuestion p.2)

/-! ## Snapshot store -/

/-- Python `str.strip()`: drop whitespace from both ends. -/
def pyStrip (s : String) : String :=
  String.mk (((s.data.dropWhile Char.isWhitespace).reverse.dropWhile Char.isWhitespace).reverse)

/-- `get_session_file_path` (app.py lines 28-32): keep alphanumeric
characters, spaces, hyphens and underscores; strip trailing whitespace;
map spaces to underscores; wrap in the backup-file name. -/
def get_session_file_path (tab_name : String) : String :=
  let kept := tab_name.data.filter (fun c => c.isAlphanum || c = ' ' || c = '-' || c = '_')
  let stripped := (kept.reverse.dropWhile Char.isWhitespace).reverse
  let underscored := stripped.map (fun c => if c = ' ' then '_' else c)
  "session_backup_" ++ String.mk underscored ++ ".pkl"

/-- One uploaded question/answer record. -/
structure QuestionRecord where
  question : String
  answer : String
  deriving DecidableEq, Repr

/-- The session dict pickled by `save_session_to_file` (app.py lines
109-117): a timestamp plus the enumerated session fields. -/
structure StoredSession where
  timestamp : String
  question_tags : List (Nat × QuestionTag)
  question_mappings : TaggingState
  question_col : String
  answer_col : String
  uploaded_file_name : Option String
  questions_data : Option (List QuestionRecord)
  deriving DecidableEq, Repr

/-- The initial session written for a fresh tab (app.py lines 78-86). -/
def initialSession (ts : String) : StoredSession :=
  { timestamp := ts
    question_tags := []
    question_mappings := []
    question_col := "Question"
    answer_col := "Answer"
    uploaded_file_name := none
    questions_data := none }

/-- The on-disk state: file path to file content, where `none` stands
for a file whose pickled payload is corrupt or unreadable and a missing
key stands for a missing file. -/
abbrev FileStore : Type := List (String × Option StoredSession)

/-- Outcome of the file write attempted inside the try block of
`save_session_to_file` — the operating system may fail the write. -/
inductive WriteOutcome where
  | success
  | ioFailure
  deriving DecidableEq, Repr

/-- `save_session_to_file` (app.py lines 102-126): pickle the session
dict to the tab's backup file and report success as a boolean; the
enclosing try/except turns any write failure into a `False` return with
the store untouched, never an exception. -/
def save_session_to_file (fs : FileStore) (tab : String) (d : StoredSession)
    (o : WriteOutcome) : FileStore × Bool :=
  match o with
  | WriteOutcome.success => (setAssoc fs (get_session_file_path tab) (some d), true)
  | WriteOutcome.ioFailure => (fs, false)

/-- `load_session_from_file` (app.py lines 128-152): if the tab's backup
file exists and unpickles, restore it; a missing file falls through to
`return None` and a corrupt payload raises inside the try block and is
caught, also yielding `None`. -/
def load_session_from_file (fs : FileStore) (tab : String) : Option StoredSession :=
  match lookupA (get_session_file_path tab) fs with
  | some (some d) => some d
  | _ => none

/-- `create_new_tab` (app.py lines 59-92): reject a name that is empty
or whitespace-only, work with the stripped name from then on, reject a
name already registered, otherwise append it to the active-tabs registry
and write a fresh initial session to its backup file. -/
def create_new_tab (tabs : List String) (fs : FileStore) (name : String) (ts : String) :
    List String × FileStore × Bool :=
  if pyStrip name = "" then (tabs, fs, false)
  else
    let n := pyStrip name
    if n ∈ tabs then (tabs, fs, false)
    else (tabs ++ [n], setAssoc fs (get_session_file_path n) (some (initialSession ts)), true)

/-! ## Spec-side comparison definitions -/

/-- Modelled from the spec: "appending ... only if not already present
... an idempotent set-like insert that preserves first-seen order" —
the canonical first-seen deduplication of a list, used to compare the
built hierarchy against the spec's ordering requirement. -/
def specFirstSeen (l : List String) : List String :=
  l.foldl insertIfAbsent []

/-- The topics of subject `s` as they occur in the raw rows, in row
order, with repetitions. -/
def rowTopicsList (rows : List TaxRow) (s : String) : List String :=
  rows.filterMap (fun r => if r.Subject = s then some r.Topic else none)

/-- The subtopics of the pair `(s, t)` as they occur in the raw rows, in
row order, with repetitions. -/
def rowSubtopicsList (rows : List TaxRow) (s t : String) : List String :=
  rows.filterMap (fun r => if r.Subject = s ∧ r.Topic = t then some r.Subtopic else none)

/-! ## Concrete instances used by the scenario claims -/

/-- The taxonomy rows of the spec's scenario for the hierarchy. -/
def scenarioRows : List TaxRow :=
  [⟨"Math", "Algebra", "Linear Eqs"⟩, ⟨"Math", "Algebra", "Quadratics"⟩,
   ⟨"Math", "Geometry", "Triangles"⟩]

/-- Taxonomy rows under which two distinct subjects share the topic
name Algebra (and its subtopic Linear Eqs). -/
def cexRows : List TaxRow :=
  [⟨"Math", "Algebra", "Linear Eqs"⟩, ⟨"Science", "Algebra", "Linear Eqs"⟩]

/-- Question 0 of the export scenario: one complete mapping followed by
one fully empty mapping. -/
def scenarioTag : QuestionTag :=
  ⟨"Q0", "A0", [⟨"Math", "Algebra", "Linear Eqs"⟩, ⟨"", "", ""⟩]⟩

/-- A session whose three questions carry zero, one and three mappings
respectively. -/
def demoSession : StoredSession :=
  { timestamp := "2024-01-01T00:00:00"
    question_tags :=
      [(0, ⟨"Q0", "A0", []⟩),
       (1, ⟨"Q1", "A1", [⟨"Math", "Algebra", "Linear Eqs"⟩]⟩),
       (2, ⟨"Q2", "A2", [emptyMapping, ⟨"Math", "Geometry", "Triangles"⟩, emptyMapping]⟩)]
    question_mappings :=
      [(0, []),
       (1, [⟨"Math", "Algebra", "Linear Eqs"⟩]),
       (2, [emptyMapping, ⟨"Math", "Geometry", "Triangles"⟩, emptyMapping])]
    question_col := "Frage"
    answer_col := "Antwort"
    uploaded_file_name := some "Questions.xlsx"
    questions_data := some [⟨"Q0", "A0"⟩, ⟨"Q1", "A1"⟩, ⟨"Q2", "A2"⟩] }

/-- A store already holding two registered workspaces. -/
def demoStore : FileStore :=
  [(get_session_file_path "Tab A", some (initialSession "t0")),
   (get_session_file_path "Tab B", some (initialSession "t1"))]

/-- Registration of the workspace name Tab! on an empty registry. -/
def tabReg1 : List String × FileStore × Bool :=
  create_new_tab [] [] "Tab!" "t0"

/-- Registration of the workspace name Tab? after Tab!. -/
def tabReg2 : List String × FileStore × Bool :=
  create_new_tab tabReg1.1 tabReg1.2.1 "Tab?" "t1"

/-! ## Association-list lemmas -/

theorem lookupA_updAssoc {α β : Type} [DecidableEq α] (k k' : α) (d : β) (f : β → β)
    (l : List (α × β)) :
    lookupA k' (updAssoc k d f l) =
      if k' = k then some (f ((lookupA k l).getD d)) else lookupA k' l := by
  induction l with
  | nil =>
      by_cases h : k' = k
      · subst h; simp [updAssoc, lookupA]
      · simp [updAssoc, lookupA, h, Ne.symm h]
  | cons p rest ih =>
      by_cases hp : p.1 = k
      · by_cases h : k' = k
        · subst h; simp [updAssoc, lookupA, hp]
        · have hpk : p.1 ≠ k' := fun e => h (e.symm.trans hp)
          simp [updAssoc, lookupA, hp, h, hpk, Ne.symm h]
      · by_cases h : k' = k
        · subst h; simp [updAssoc, lookupA, hp, ih]
        · by_cases hpk : p.1 = k' <;> simp [updAssoc, lookupA, hp, h, hpk, ih]

theorem map_fst_updAssoc {α β : Type} [DecidableEq α] (k : α) (d : β) (f : β → β)
    (l : List (α × β)) :
    (updAssoc k d f l).map Prod.fst = insertIfAbsent (l.map Prod.fst) k := by
  induction l with
  | nil => simp [updAssoc, insertIfAbsent]
  | cons p rest ih =>
      by_cases hp : p.1 = k
      · simp [updAssoc, insertIfAbsent, hp]
      · by_cases hm : k ∈ rest.map Prod.fst <;>
          simp [updAssoc, insertIfAbsent, hp, hm, Ne.symm hp, ih]

/-! ## Hierarchy lemmas -/

theorem topicsOf_addRow (h : Hierarchy) (r : TaxRow) (s : String) :
    topicsOf (addRow h r) s =
      if r.Subject = s then insertIfAbsent (topicsOf h s) r.Topic else topicsOf h s := by
  unfold topicsOf addRow
  rw [lookupA_updAssoc]
  by_cases hs : s = r.Subject
  · subst hs; simp [map_fst_updAssoc]
  · simp [hs, Ne.symm hs]

theorem subtopicsOf_addRow (h : Hierarchy) (r : TaxRow) (s t : String) :
    subtopicsOf (addRow h r) s t =
      if r.Subject = s ∧ r.Topic = t then insertIfAbsent (subtopicsOf h s t) r.Subtopic
      else subtopicsOf h s t := by
  unfold subtopicsOf addRow
  rw [lookupA_updAssoc]
  by_cases hs : s = r.Subject
  · subst hs
    rw [if_pos rfl, Option.getD_some, lookupA_updAssoc]
    by_cases ht : t = r.Topic
    · subst ht; simp
    · simp [ht, Ne.symm ht]
  · simp [hs, Ne.symm hs]

theorem topicsOf_foldl (rows : List TaxRow) (h : Hierarchy) (s : String) :
    topicsOf (rows.foldl addRow h) s =
      (rowTopicsList rows s).foldl insertIfAbsent (topicsOf h s) := by
  induction rows generalizing h with
  | nil => simp [rowTopicsList]
  | cons r rows ih =>
      by_cases hr : r.Subject = s <;>
        simp [rowTopicsList, List.filterMap_cons, hr, ih, topicsOf_addRow]

theorem subtopicsOf_foldl (rows : List TaxRow) (h : Hierarchy) (s t : String) :
    subtopicsOf (rows.foldl addRow h) s t =
      (rowSubtopicsList rows s t).foldl insertIfAbsent (subtopicsOf h s t) := by
  induction rows generalizing h with
  | nil => simp [rowSubtopicsList]
  | cons r rows ih =>
      by_cases hr : r.Subject = s ∧ r.Topic = t <;>
        simp [rowSubtopicsList, List.filterMap_cons, hr, ih, subtopicsOf_addRow]

theorem nodup_insertIfAbsent {α : Type} [DecidableEq α] (l : List α) (x : α)
    (h : l.Nodup) : (insertIfAbsent l x).Nodup := by
  unfold insertIfAbsent
  split
  · exact h
  · next hx =>
      rw [← List.concat_eq_append]
      exact List.Nodup.concat hx h

theorem nodup_foldl_insertIfAbsent {α : Type} [DecidableEq α] (l : List α)
    (acc : List α) (h : acc.Nodup) : (l.foldl insertIfAbsent acc).Nodup := by
  induction l generalizing acc with
  | nil => simpa
  | cons a l ih => exact ih _ (nodup_insertIfAbsent _ _ h)

/-- Claim C7: for every sequence of taxonomy rows, the built hierarchy
lists each (subject, topic) pair's subtopics without duplicates and in
first-seen order, and lists topics within a subject in first-seen
order; on the scenario rows, topics of Math are [Algebra, Geometry] and
subtopics of (Math, Algebra) are [Linear Eqs, Quadratics]. -/
theorem hierarchy_first_seen :
    (∀ (rows : List TaxRow) (s t : String),
      (subtopicsOf (get_hierarchy_data rows) s t).Nodup) ∧
    (∀ (rows : List TaxRow) (s t : String),
      subtopicsOf (get_hierarchy_data rows) s t = specFirstSeen (rowSubtopicsList rows s t)) ∧
    (∀ (rows : List TaxRow) (s : String),
      topicsOf (get_hierarchy_data rows) s = specFirstSeen (rowTopicsList rows s)) ∧
    topicsOf (get_hierarchy_data scenarioRows) "Math" = ["Algebra", "Geometry"] ∧
    subtopicsOf (get_hierarchy_data scenarioRows) "Math" "Algebra" =
      ["Linear Eqs", "Quadratics"] := by
  have hsub : ∀ (rows : List TaxRow) (s t : String),
      subtopicsOf (get_hierarchy_data rows) s t = specFirstSeen (rowSubtopicsList rows s t) := by
    intro rows s t
    unfold get_hierarchy_data specFirstSeen
    rw [subtopicsOf_foldl]
    simp [subtopicsOf, lookupA]
  have htop : ∀ (rows : List TaxRow) (s : String),
      topicsOf (get_hierarchy_data rows) s = specFirstSeen (rowTopicsList rows s) := by
    intro rows s
    unfold get_hierarchy_data specFirstSeen
    rw [topicsOf_foldl]
    simp [topicsOf, lookupA]
  refine ⟨?_, hsub, htop, by decide, by decide⟩
  intro rows s t
  rw [hsub]
  exact nodup_foldl_insertIfAbsent _ _ List.nodup_nil

/-! ## Dropdown-interaction lemmas -/

theorem dropdownSelect_eq (options : List String) (current : String) :
    dropdownSelect options current =
      if current ∈ options then current else options.getD 0 "" := by
  unfold dropdownSelect
  by_cases h : current ∈ options
  · have hlt : options.indexOf current < options.length := List.indexOf_lt_length.mpr h
    rw [if_pos h, if_pos h, List.getD_eq_getElem _ _ hlt]
    exact List.getElem_indexOf hlt
  · simp [h]

theorem dropdownSelect_singleton_empty (current : String) :
    dropdownSelect [""] current = "" := by
  rw [dropdownSelect_eq]
  by_cases h : current ∈ [""] <;> simp_all

/-- Claim C1 counterexample: under taxonomy rows that give both Math and
Science the topic Algebra, switching the mapping's subject from Math to
Science keeps topic Algebra and subtopic Linear Eqs instead of clearing
them, although the new subject differs from the old one. -/
theorem subject_change_retains_topic_cex :
    ("Science" : String) ≠ (Mapping.mk "Math" "Algebra" "Linear Eqs").Subject ∧
    interactSubject (get_hierarchy_data cexRows) ⟨"Math", "Algebra", "Linear Eqs"⟩ "Science" =
      ⟨"Science", "Algebra", "Linear Eqs"⟩ := by
  constructor
  · decide
  · rfl

/-- Claim C1 (amended): changing a mapping's subject to a different
value clears topic and subtopic, except that the old topic (and under it
the old subtopic) survives when the old topic is also a topic of the new
subject; in particular, whenever the old topic is not among the new
subject's topics, both topic and subtopic end up unset. -/
theorem subject_change_clears (h : Hierarchy) (m : Mapping) (s' : String)
    (_hdiff : s' ≠ m.Subject) (hnot : m.Topic ∉ topicsOf h s') :
    (interactSubject h m s').Topic = "" ∧ (interactSubject h m s').Subtopic = "" := by
  have hTopic :
      dropdownSelect (if s' ≠ "" then "" :: topicsOf h s' else [""]) m.Topic = "" := by
    by_cases hs : s' = ""
    · simp [hs, dropdownSelect_singleton_empty]
    · rw [if_pos hs, dropdownSelect_eq]
      by_cases hm : m.Topic = ""
      · simp [hm]
      · have hmem : m.Topic ∉ ("" :: topicsOf h s') := by simp [hm, hnot]
        simp [hmem]
  constructor
  · simp only [interactSubject, hTopic]
  · simp only [interactSubject, hTopic]
    simp [dropdownSelect_singleton_empty]

/-- Witness for the amended claim C1 at concrete input: History has no
topics, so switching the subject from Math to History clears topic and
subtopic. -/
theorem subject_change_clears_witness :
    ("History" : String) ≠ (Mapping.mk "Math" "Algebra" "Linear Eqs").Subject ∧
    (Mapping.mk "Math" "Algebra" "Linear Eqs").Topic ∉
      topicsOf (get_hierarchy_data cexRows) "History" ∧
    ((interactSubject (get_hierarchy_data cexRows) ⟨"Math", "Algebra", "Linear Eqs"⟩
        "History").Topic = "" ∧
     (interactSubject (get_hierarchy_data cexRows) ⟨"Math", "Algebra", "Linear Eqs"⟩
        "History").Subtopic = "") :=
  ⟨by decide, by decide,
   subject_change_clears (get_hierarchy_data cexRows) ⟨"Math", "Algebra", "Linear Eqs"⟩
     "History" (by decide) (by decide)⟩

/-! ## Export flattener theorems -/

/-- Claim C2 counterexample: for question 0 with mappings
[{Math, Algebra, Linear Eqs}, {unset, unset, unset}] the export emits
one row, not two — the fully empty mapping is filtered out by the
valid-mapping test. -/
theorem flatten_scenario_two_rows_cex :
    (exportFlatten [(0, scenarioTag)]).length ≠ 2 := by
  decide

/-- Claim C2 (amended): for question 0 with mappings
[{Math, Algebra, Linear Eqs}, {unset, unset, unset}] the export emits
exactly one row, carrying the complete mapping; the fully empty second
mapping contributes no row because the question has a valid mapping. -/
theorem flatten_scenario_single_row :
    exportFlatten [(0, scenarioTag)] =
      [⟨"Q0", "A0", "Math", "Algebra", "Linear Eqs"⟩] := by
  rfl

theorem rowsForQuestion_length_pos (t : QuestionTag) :
    0 < (rowsForQuestion t).length := by
  simp only [rowsForQuestion]
  split
  · next hv => simpa using List.length_pos.mpr hv
  · simp

theorem rowsForQuestion_fields (t : QuestionTag) :
    ∀ r ∈ rowsForQuestion t, r.Question = t.Question ∧ r.Answer = t.Answer := by
  intro r hr
  simp only [rowsForQuestion] at hr
  split at hr
  · obtain ⟨m, _, rfl⟩ := List.mem_map.mp hr
    exact ⟨rfl, rfl⟩
  · rw [List.mem_singleton] at hr
    subst hr
    exact ⟨rfl, rfl⟩

theorem exportFlatten_length_ge (tags : List (Nat × QuestionTag)) :
    tags.length ≤ (exportFlatten tags).length := by
  induction tags with
  | nil => simp [exportFlatten]
  | cons p rest ih =>
      have h1 := rowsForQuestion_length_pos p.2
      simp only [exportFlatten, List.flatMap_cons, List.length_append, List.length_cons] at *
      omega

/-- Claim C3: the export never drops a question — the row count is at
least the question count, every question contributes at least one row
bearing its question and answer text, and a question all of whose
mappings are fully empty contributes exactly one row with empty
Subject, Topic and Subtopic. -/
theorem flatten_never_drops_question (tags : List (Nat × QuestionTag)) :
    tags.length ≤ (exportFlatten tags).length ∧
    (∀ p ∈ tags, ∃ r ∈ exportFlatten tags,
      r.Question = p.2.Question ∧ r.Answer = p.2.Answer) ∧
    (∀ p ∈ tags, (∀ m ∈ p.2.Mappings, mappingNonEmpty m = false) →
      rowsForQuestion p.2 = [⟨p.2.Question, p.2.Answer, "", "", ""⟩]) := by
  refine ⟨exportFlatten_length_ge tags, ?_, ?_⟩
  · intro p hp
    obtain ⟨r, hr⟩ :=
      List.exists_mem_of_ne_nil _ (List.ne_nil_of_length_pos (rowsForQuestion_length_pos p.2))
    exact ⟨r, List.mem_flatMap.mpr ⟨p, hp, hr⟩, rowsForQuestion_fields p.2 r hr⟩
  · intro p _ hall
    have hnil : p.2.Mappings.filter mappingNonEmpty = [] := by
      rw [List.filter_eq_nil_iff]
      intro m hm
      simp [hall m hm]
    simp [rowsForQuestion, hnil]

/-- Witness for claim C3 at a one-question state whose single mapping is
fully empty. -/
theorem flatten_never_drops_question_witness :
    (([(0, ⟨"Q", "A", [emptyMapping]⟩)] : List (Nat × QuestionTag)).length ≤
      (exportFlatten [(0, ⟨"Q", "A", [emptyMapping]⟩)]).length) ∧
    (∃ r ∈ exportFlatten [(0, ⟨"Q", "A", [emptyMapping]⟩)],
      r.Question = "Q" ∧ r.Answer = "A") ∧
    rowsForQuestion ⟨"Q", "A", [emptyMapping]⟩ = [⟨"Q", "A", "", "", ""⟩] := by
  obtain ⟨h1, h2, h3⟩ := flatten_never_drops_question [(0, ⟨"Q", "A", [emptyMapping]⟩)]
  exact ⟨h1, h2 (0, ⟨"Q", "A", [emptyMapping]⟩) (by simp),
         h3 (0, ⟨"Q", "A", [emptyMapping]⟩) (by simp) (by decide)⟩

/-! ## Snapshot round-trip -/

theorem lookupA_setAssoc_self {α β : Type} [DecidableEq α] (l : List (α × β))
    (k : α) (v : β) : lookupA k (setAssoc l k v) = some v := by
  unfold setAssoc
  rw [lookupA_updAssoc]
  simp

/-- Claim C4: loading a workspace immediately after saving it returns
exactly the saved session record — in particular its tagging state,
column bindings and source question records — for every prior store and
every session, including the demo store with two workspaces and the
demo session whose three questions carry zero, one and three
mappings. -/
theorem session_roundtrip :
    (∀ (fs : FileStore) (tab : String) (d : StoredSession),
      load_session_from_file (save_session_to_file fs tab d WriteOutcome.success).1 tab =
        some d) ∧
    load_session_from_file
        (save_session_to_file demoStore "Tab A" demoSession WriteOutcome.success).1 "Tab A" =
      some demoSession := by
  have huniv : ∀ (fs : FileStore) (tab : String) (d : StoredSession),
      load_session_from_file (save_session_to_file fs tab d WriteOutcome.success).1 tab =
        some d := by
    intro fs tab d
    simp [load_session_from_file, save_session_to_file, lookupA_setAssoc_self]
  exact ⟨huniv, huniv demoStore "Tab A" demoSession⟩

/-! ## Mapping removal -/

/-- Claim C5: a removal request on a question whose mapping list has
exactly one element is rejected with `InvariantError` and leaves the
list unchanged; on a list with more than one element it removes exactly
the element at the given position. -/
theorem remove_mapping_spec (l : List Mapping) (pos : Nat) :
    (l.length = 1 →
      remove_mapping l pos = Except.error InvariantError.removeLastMapping ∧
      remove_mapping_run l pos = l) ∧
    (1 < l.length → pos < l.length →
      remove_mapping l pos = Except.ok (l.take pos ++ l.drop (pos + 1))) := by
  constructor
  · intro h1
    have hguard : ¬1 < l.length := by omega
    constructor
    · simp [remove_mapping, hguard]
    · simp [remove_mapping_run, remove_mapping, hguard]
  · intro h1 _
    rw [remove_mapping, if_pos h1, List.eraseIdx_eq_take_drop_succ]

/-- Witness for claim C5: on a singleton list the removal is rejected
and nothing changes; on a two-element list position 1 is removed. -/
theorem remove_mapping_spec_witness :
    (remove_mapping [emptyMapping] 0 = Except.error InvariantError.removeLastMapping ∧
     remove_mapping_run [emptyMapping] 0 = [emptyMapping]) ∧
    remove_mapping [emptyMapping, ⟨"Math", "", ""⟩] 1 =
      Except.ok ([emptyMapping, ⟨"Math", "", ""⟩].take 1 ++
        [emptyMapping, ⟨"Math", "", ""⟩].drop 2) := by
  constructor
  · exact (remove_mapping_spec [emptyMapping] 0).1 (by decide)
  · exact (remove_mapping_spec [emptyMapping, ⟨"Math", "", ""⟩] 1).2 (by decide) (by decide)

/-! ## Tagging-state invariant -/

theorem lookupA_append {α β : Type} [DecidableEq α] (k : α) (l₁ l₂ : List (α × β)) :
    lookupA k (l₁ ++ l₂) =
      match lookupA k l₁ with
      | some v => some v
      | none => lookupA k l₂ := by
  induction l₁ with
  | nil => simp [lookupA]
  | cons p rest ih => by_cases hp : p.1 = k <;> simp [lookupA, hp, ih]

theorem modifyAt_nonempty (s : TaggingState) (idx : Nat)
    (f : List Mapping → List Mapping) (hf : ∀ l, l ≠ [] → f l ≠ [])
    (hs : mappingListsNonempty s) : mappingListsNonempty (modifyAt s idx f) := by
  intro p hp
  simp only [modifyAt, List.mem_map] at hp
  obtain ⟨q, hq, rfl⟩ := hp
  by_cases h : q.1 = idx
  · simpa [h] using hf q.2 (hs q hq)
  · simpa [h] using hs q hq

theorem remove_mapping_run_nonempty (l : List Mapping) (pos : Nat) (h : l ≠ []) :
    remove_mapping_run l pos ≠ [] := by
  simp only [remove_mapping_run, remove_mapping]
  by_cases hlen : 1 < l.length
  · simp only [if_pos hlen]
    have : 0 < (l.eraseIdx pos).length := by
      rw [List.length_eraseIdx]
      split <;> omega
    exact List.ne_nil_of_length_pos this
  · simpa [hlen] using h

/-- Claim C6: the at-least-one-mapping invariant is established by
`ensure_question` — which idempotently initializes a missing list to a
single empty mapping — and preserved by `add_mapping`,
`remove_mapping_state` and `set_field`. -/
theorem mapping_lists_invariant (s : TaggingState) (idx pos : Nat) (m : Mapping) :
    (mappingListsNonempty s → mappingListsNonempty (ensure_question s idx)) ∧
    (lookupA idx s = none →
      lookupA idx (ensure_question s idx) = some [emptyMapping]) ∧
    ensure_question (ensure_question s idx) idx = ensure_question s idx ∧
    (mappingListsNonempty s → mappingListsNonempty (add_mapping s idx)) ∧
    (mappingListsNonempty s → mappingListsNonempty (remove_mapping_state s idx pos)) ∧
    (mappingListsNonempty s → mappingListsNonempty (set_field s idx pos m)) := by
  refine ⟨?_, ?_, ?_, ?_, ?_, ?_⟩
  · intro hs
    unfold ensure_question
    split
    · exact hs
    · intro p hp
      rcases List.mem_append.mp hp with h | h
      · exact hs p h
      · rw [List.mem_singleton] at h
        subst h
        simp
  · intro hnone
    rw [ensure_question, if_neg (by simp [hnone]), lookupA_append, hnone]
    simp [lookupA]
  · by_cases hs : (lookupA idx s).isSome
    · simp [ensure_question, hs]
    · have h2 : lookupA idx (s ++ [(idx, [emptyMapping])]) = some [emptyMapping] := by
        rw [lookupA_append]
        rcases h : lookupA idx s with _ | v
        · simp [lookupA]
        · simp [h] at hs
      simp [ensure_question, hs, h2]
  · intro hs
    exact modifyAt_nonempty s idx _ (fun l _ => by simp) hs
  · intro hs
    exact modifyAt_nonempty s idx _ (fun l hl => remove_mapping_run_nonempty l pos hl) hs
  · intro hs
    refine modifyAt_nonempty s idx _ (fun l hl => ?_) hs
    have : 0 < (l.set pos m).length := by
      rw [List.length_set]
      exact List.length_pos.mpr hl
    exact List.ne_nil_of_length_pos this

/-- Witness for claim C6 on the concrete state with question 0 holding
one empty mapping, exercising `ensure_question` at the missing index 1
and the mutations at index 0. -/
theorem mapping_lists_invariant_witness :
    mappingListsNonempty (ensure_question [(0, [emptyMapping])] 1) ∧
    lookupA 1 (ensure_question [(0, [emptyMapping])] 1) = some [emptyMapping] ∧
    ensure_question (ensure_question [(0, [emptyMapping])] 1) 1 =
      ensure_question [(0, [emptyMapping])] 1 ∧
    mappingListsNonempty (add_mapping [(0, [emptyMapping])] 1) ∧
    mappingListsNonempty (remove_mapping_state [(0, [emptyMapping])] 1 0) ∧
    mappingListsNonempty (set_field [(0, [emptyMapping])] 1 0 emptyMapping) := by
  obtain ⟨h1, h2, h3, h4, h5, h6⟩ :=
    mapping_lists_invariant [(0, [emptyMapping])] 1 0 emptyMapping
  have hne : mappingListsNonempty [(0, [emptyMapping])] := by
    intro p hp
    rw [List.mem_singleton] at hp
    subst hp
    simp
  exact ⟨h1 hne, h2 rfl, h3, h4 hne, h5 hne, h6 hne⟩

/-! ## Persistence error handling -/

/-- Claim C8: `save_session_to_file` and `load_session_from_file` are
total functions of the store — the try/except blocks of the source turn
every failure into a return value, never an exception: a failed write
returns `false` with the store untouched, a successful write returns
`true`, and loading a missing or corrupt snapshot returns `none`. -/
theorem persistence_never_raises (fs : FileStore) (tab : String) (d : StoredSession) :
    save_session_to_file fs tab d WriteOutcome.ioFailure = (fs, false) ∧
    (save_session_to_file fs tab d WriteOutcome.success).2 = true ∧
    (lookupA (get_session_file_path tab) fs = none → load_session_from_file fs tab = none) ∧
    (lookupA (get_session_file_path tab) fs = some none →
      load_session_from_file fs tab = none) := by
  refine ⟨rfl, rfl, ?_, ?_⟩ <;>
    · intro h
      simp [load_session_from_file, h]

/-- Witness for claim C8: the missing-file and corrupt-file loads both
return `none` on concrete stores, and the failed write reports `false`
without touching the empty store. -/
theorem persistence_never_raises_witness :
    save_session_to_file [] "T" (initialSession "t") WriteOutcome.ioFailure = ([], false) ∧
    (save_session_to_file [] "T" (initialSession "t") WriteOutcome.success).2 = true ∧
    load_session_from_file [] "T" = none ∧
    load_session_from_file [(get_session_file_path "T", none)] "T" = none := by
  obtain ⟨h1, h2, h3, _⟩ := persistence_never_raises [] "T" (initialSession "t")
  have h4 :=
    (persistence_never_raises [(get_session_file_path "T", (none : Option StoredSession))]
      "T" (initialSession "t")).2.2.2
  exact ⟨h1, h2, h3 rfl, h4 (by rw [lookupA, if_pos rfl])⟩

/-! ## Workspace registration -/

/-- Claim C9 counterexample: the name " Math" (leading space) is neither
blank nor whitespace-only nor literally present in the registry
["Math"], yet `create_new_tab` rejects it and leaves the registry
unchanged, because the membership test runs on the stripped name. -/
theorem create_new_tab_trim_cex :
    pyStrip " Math" ≠ "" ∧
    (" Math" : String) ∉ (["Math"] : List String) ∧
    create_new_tab ["Math"] [] " Math" "t" = (["Math"], [], false) := by
  refine ⟨by decide, by decide, ?_⟩
  rfl

/-- Claim C9 (amended): `create_new_tab` works on the stripped name: it
returns false when the stripped name is empty (blank or whitespace-only
input) or already registered, leaving registry and store unchanged;
otherwise it appends the stripped name to the registry, writes the
fresh initial session under the stripped name's backup file, and
returns true. -/
theorem create_new_tab_spec (tabs : List String) (fs : FileStore) (name ts : String) :
    (pyStrip name = "" → create_new_tab tabs fs name ts = (tabs, fs, false)) ∧
    (pyStrip name ≠ "" → pyStrip name ∈ tabs →
      create_new_tab tabs fs name ts = (tabs, fs, false)) ∧
    (pyStrip name ≠ "" → pyStrip name ∉ tabs →
      create_new_tab tabs fs name ts =
        (tabs ++ [pyStrip name],
         setAssoc fs (get_session_file_path (pyStrip name)) (some (initialSession ts)),
         true)) := by
  refine ⟨?_, ?_, ?_⟩
  · intro h
    simp [create_new_tab, h]
  · intro h hmem
    simp [create_new_tab, h, hmem]
  · intro h hmem
    simp [create_new_tab, h, hmem]

/-- Witness for the amended claim C9: a whitespace-only name and an
already-registered name are rejected; the name " New Tab " is accepted
and registered under its stripped form "New Tab". -/
theorem create_new_tab_spec_witness :
    create_new_tab [] [] "   " "t" = ([], [], false) ∧
    create_new_tab ["Tab"] [] "Tab" "t" = (["Tab"], [], false) ∧
    pyStrip " New Tab " = "New Tab" ∧
    create_new_tab [] [] " New Tab " "t" =
      ([pyStrip " New Tab "],
       setAssoc [] (get_session_file_path (pyStrip " New Tab ")) (some (initialSession "t")),
       true) := by
  refine ⟨(create_new_tab_spec [] [] "   " "t").1 (by decide),
          (create_new_tab_spec ["Tab"] [] "Tab" "t").2.1 (by decide) (by decide),
          by decide, ?_⟩
  exact (create_new_tab_spec [] [] " New Tab " "t").2.2 (by decide) (by decide)

/-! ## Sanitization collision -/

/-- Claim C10: the workspace-name sanitization is not injective — the
distinct non-blank names Tab! and Tab? both register successfully as
separate entries of the registry, yet share the backup file path, so a
session saved under Tab! is what a load of Tab? returns. -/
theorem sanitization_not_injective :
    ("Tab!" : String) ≠ "Tab?" ∧
    get_session_file_path "Tab!" = get_session_file_path "Tab?" ∧
    tabReg1.2.2 = true ∧
    tabReg2.2.2 = true ∧
    tabReg2.1 = ["Tab!", "Tab?"] ∧
    load_session_from_file
        (save_session_to_file tabReg2.2.1 "Tab!" (initialSession "t2")
          WriteOutcome.success).1 "Tab?" =
      some (initialSession "t2") := by
  refine ⟨by decide, rfl, rfl, rfl, rfl, rfl⟩

end QTag
